import Mathlib

/-!
Verification development for the guild-configuration core of the bot:
the in-memory guild-settings cache, the durable `guild_settings` table,
the lifecycle handlers `guild_create` / `guild_delete`, the `prefix`
command, and the presence loop started from `cache_ready`.

Shallow embedding conventions:
* Guild and user ids (`u64` in the source) are modelled as `Nat`.
* The in-memory cache (`HashMap<u64, GuildSettings>` behind a lock) is an
  association list with at most one binding per key; `HashMap::insert`
  replaces, `entry(..).or_insert(..)` inserts only when absent.
* The SQLite table is a list of rows; `INSERT .. ON CONFLICT DO NOTHING`,
  `UPDATE .. WHERE guild_id = ?` and `DELETE .. WHERE guild_id = ?` are
  modelled row-wise.  Columns absent from the INSERT take the schema
  defaults (`mute_type = 'timeout'`, `mute_role = 0`).
* The token `pfx` throughout names the source's prefix field / argument
  (the raw field name cannot be used as a Lean identifier here).
* `.unwrap()` on a `None` / `Err` is modelled as an explicit `panicked`
  outcome of the handler.
-/

/-- The `GuildSettings` struct held in the cache: `pfx` models the
source's prefix field; `owner_id`, `mute_type`, `mute_role` as in the
source. -/
structure GuildSettings where
  pfx : String
  owner_id : Nat
  mute_type : String
  mute_role : Nat
deriving DecidableEq

/-- The in-memory cache: association list from guild id to settings. -/
abbrev Cache := List (Nat × GuildSettings)

/-- `HashMap::get`: first binding for the key, if any. -/
def cacheGet (c : Cache) (k : Nat) : Option GuildSettings :=
  match c.find? (fun p => p.1 == k) with
  | some p => some p.2
  | none => none

/-- `HashMap::insert`: replaces any existing binding for the key. -/
def cacheInsert (c : Cache) (k : Nat) (v : GuildSettings) : Cache :=
  (k, v) :: c.filter (fun p => p.1 != k)

/-- One row of the durable `guild_settings` table. -/
structure Row where
  guild_id : Nat
  pfx : String
  owner_id : Nat
  mute_type : String
  mute_role : Nat
deriving DecidableEq

/-- The durable store: list of rows (one per guild id). -/
abbrev Store := List Row

/-- `SELECT .. WHERE guild_id = ?`: the row for a guild id, if any. -/
def storeGet (st : Store) (g : Nat) : Option Row :=
  st.find? (fun r => r.guild_id == g)

/-- Whether the table has a row for the guild id. -/
def hasRow (st : Store) (g : Nat) : Bool :=
  (storeGet st g).isSome

/-- `INSERT INTO guild_settings (guild_id, prefix, owner_id) VALUES (?, "-", ?)
ON CONFLICT DO NOTHING`; unnamed columns take the schema defaults
`mute_type = "timeout"`, `mute_role = 0`.  On conflict the statement is a
no-op (it does not error). -/
def insertOrIgnore (st : Store) (g owner : Nat) : Store :=
  if hasRow st g then st else st ++ [⟨g, "-", owner, "timeout", 0⟩]

/-- `UPDATE guild_settings SET prefix = ? WHERE guild_id = ?`: rewrites the
pfx column of matching rows; creates no row. -/
def updatePfx (st : Store) (g : Nat) (p : String) : Store :=
  st.map (fun r => if r.guild_id == g then { r with pfx := p } else r)

/-- `DELETE FROM guild_settings WHERE guild_id = ?`. -/
def deleteRow (st : Store) (g : Nat) : Store :=
  st.filter (fun r => r.guild_id != g)

/-- Externally visible effects of a lifecycle handler, in issue order. -/
inductive DbEffect where
  | storeInsert : Nat → DbEffect
  | cacheWrite : Nat → DbEffect
  | storeDelete : Nat → DbEffect
  | cacheRemove : Nat → DbEffect
deriving DecidableEq

/-- Result of a lifecycle handler: the new store, the new cache, and the
trace of store/cache effects in the order the handler issues them. -/
structure LifecycleResult where
  store : Store
  cache : Cache
  trace : List DbEffect
deriving DecidableEq

/-- `Handler::guild_create`: runs the insert-or-ignore INSERT against the
store, then writes the default settings into the cache with a plain
`HashMap::insert` (which replaces any existing entry).  The defaults are
pfx `"-"`, the event's owner id, mute_type `"timeout"`, mute_role `0`. -/
def guild_create (st : Store) (c : Cache) (guildId ownerId : Nat) :
    LifecycleResult :=
  let st2 := insertOrIgnore st guildId ownerId
  let data_to_set : GuildSettings := ⟨"-", ownerId, "timeout", 0⟩
  let c2 := cacheInsert c guildId data_to_set
  ⟨st2, c2, [DbEffect.storeInsert guildId, DbEffect.cacheWrite guildId]⟩

/-- `Handler::guild_delete`: runs the DELETE against the store.  The
handler issues no cache operation: the in-memory entry is left as is. -/
def guild_delete (st : Store) (c : Cache) (guildId : Nat) :
    LifecycleResult :=
  ⟨deleteRow st guildId, c, [DbEffect.storeDelete guildId]⟩

/-- The user-visible outcome of one `prefix`-command invocation.
`panicked` models a `.unwrap()` firing (the handling task aborts). -/
inductive Response where
  | privateInfo
  | adminDenied
  | currentPfx : String → Response
  | spacesRejected
  | pfxSet : String → Response
  | panicked
deriving DecidableEq

/-- Result of one `prefix`-command invocation: the response produced (or
the panic) plus the cache and store as the command leaves them. -/
structure CmdResult where
  response : Response
  cache : Cache
  store : Store
deriving DecidableEq

/-- `entry(guild_id).or_insert(setting)` followed by
`guild_setting.prefix = set` from the command's set path: mutates the
existing entry's pfx, or inserts the freshly built `setting` (whose pfx
is already `p`) when absent. -/
def entryOrInsertSetPfx (c : Cache) (k : Nat) (dflt : GuildSettings)
    (p : String) : Cache :=
  match cacheGet c k with
  | some old => cacheInsert c k { old with pfx := p }
  | none => cacheInsert c k { dflt with pfx := p }

/-- `str::trim` / `Args::trimmed`: drop leading and trailing whitespace
characters (space, tab, CR, LF) from the argument. -/
def rustTrim (s : String) : String :=
  String.mk
    (((s.data.dropWhile Char.isWhitespace).reverse.dropWhile
        Char.isWhitespace).reverse)

/-- `String::contains(" ")`: whether the string has a space character. -/
def containsSpace (s : String) : Bool :=
  s.data.contains ' '

/-- The `prefix` command (`commands/utilities.rs`).  Inputs: whether the
message is a DM, whether the invoker has the administrator permission,
the guild and author ids, the raw argument (the command takes 0 or 1
token; `args.trimmed()` trims it), whether the store UPDATE succeeds
(`storeOk`), and the current cache and store.  Path by path:
DM → static info; non-admin → denial; empty trimmed argument → reply
with the cached pfx (`.unwrap()` panics when the entry is absent);
argument containing a space `' '` → rejection; otherwise mutate the
cache (entry-or-insert with owner_id = the invoking author), then run
the store UPDATE (`.unwrap()` panics when it fails), then confirm. -/
def pfx_cmd (isPrivate isAdmin : Bool) (guildId authorId : Nat)
    (arg : String) (storeOk : Bool) (c : Cache) (st : Store) : CmdResult :=
  if isPrivate then ⟨Response.privateInfo, c, st⟩
  else if !isAdmin then ⟨Response.adminDenied, c, st⟩
  else
    let set := rustTrim arg
    if set = "" then
      match cacheGet c guildId with
      | none => ⟨Response.panicked, c, st⟩
      | some s => ⟨Response.currentPfx s.pfx, c, st⟩
    else if containsSpace set then ⟨Response.spacesRejected, c, st⟩
    else
      let setting : GuildSettings := ⟨set, authorId, "timeout", 0⟩
      let c2 := entryOrInsertSetPfx c guildId setting set
      if storeOk then ⟨Response.pfxSet set, c2, updatePfx st guildId set⟩
      else ⟨Response.panicked, c2, st⟩

/-- `set_activity`: the presence string published each tick, for a given
guild count. -/
def set_activity (guild_count : Nat) : String :=
  "Monitoring a total of " ++ toString guild_count ++ " guilds | -help"

/-- The body of the loop spawned by `cache_ready`: at every tick it
publishes `set_activity (guilds.len())` where `guilds` is the guild-id
list the `cache_ready` event delivered when the loop was spawned — the
count is captured once and never re-read. -/
def loopTickPublish (guilds : List Nat) (_tick : Nat) : String :=
  set_activity guilds.length

/-- Modelled from the spec: the status the spec says each tick publishes,
computed from the CURRENT cache size at that tick
(`ConfigCache.size()`), given as a function of the tick number.  Used
only to compare against `loopTickPublish`. -/
def specTickStatus (cacheSizeAtTick : Nat → Nat) (tick : Nat) : String :=
  "Monitoring a total of " ++ toString (cacheSizeAtTick tick) ++
    " guilds | -help"

/-- State of the presence-loop guard: the `is_loop_running` atomic flag
and how many presence loops have been spawned so far. -/
structure LoopGuard where
  is_loop_running : Bool
  spawned : Nat
deriving DecidableEq

/-- One `cache_ready` signal processed to completion with no overlap:
load the flag; when it was unset, spawn the loop and set the flag. -/
def cacheReady (s : LoopGuard) : LoopGuard :=
  if !s.is_loop_running then ⟨true, s.spawned + 1⟩ else s

/-- `n` `cache_ready` signals processed one after another. -/
def runSignals : Nat → LoopGuard → LoopGuard
  | 0, s => s
  | n + 1, s => runSignals n (cacheReady s)

/-- Program counter of one in-flight `cache_ready` handler: about to load
the flag, loaded a value and about to act on it, or finished.  The load
and the spawn-and-set are separate steps, as in the source
(`load(Relaxed)` then, in the taken branch, `tokio::spawn` and
`swap(true, Relaxed)`). -/
inductive HandlerPC where
  | toLoad
  | toAct : Bool → HandlerPC
  | finished
deriving DecidableEq

/-- Global state of several concurrently dispatched `cache_ready`
handlers sharing the one atomic flag. -/
structure ConcState where
  flag : Bool
  spawned : Nat
  pcs : List HandlerPC
deriving DecidableEq

/-- Run one atomic step of handler `i`: `toLoad` reads the flag;
`toAct false` spawns a loop and sets the flag; `toAct true` does
nothing.  Out-of-range or finished handlers leave the state unchanged. -/
def stepAt (s : ConcState) (i : Nat) : ConcState :=
  match s.pcs.get? i with
  | none => s
  | some HandlerPC.toLoad =>
      { s with pcs := s.pcs.set i (HandlerPC.toAct s.flag) }
  | some (HandlerPC.toAct saw) =>
      if !saw then
        ⟨true, s.spawned + 1, s.pcs.set i HandlerPC.finished⟩
      else
        { s with pcs := s.pcs.set i HandlerPC.finished }
  | some HandlerPC.finished => s

/-- Run a schedule: the list names, step by step, which handler moves. -/
def runSched (s : ConcState) : List Nat → ConcState
  | [] => s
  | i :: rest => runSched (stepAt s i) rest

/-! ### Helper lemmas -/

/-- The binding just written by `cacheInsert` is the one `cacheGet`
returns for that key. -/
theorem cacheGet_cacheInsert_self (c : Cache) (k : Nat) (v : GuildSettings) :
    cacheGet (cacheInsert c k v) k = some v := by
  simp [cacheGet, cacheInsert]

/-- `hasRow` is false exactly when the lookup returns nothing. -/
theorem hasRow_eq_false_iff (st : Store) (g : Nat) :
    hasRow st g = false ↔ storeGet st g = none := by
  unfold hasRow
  cases storeGet st g <;> simp

/-- An UPDATE targeting an absent guild id rewrites no row. -/
theorem updatePfx_of_none (st : Store) (g : Nat) (p : String)
    (h : storeGet st g = none) : updatePfx st g p = st := by
  unfold storeGet at h
  rw [List.find?_eq_none] at h
  unfold updatePfx
  have hfix : ∀ r ∈ st,
      (if r.guild_id == g then { r with pfx := p } else r) = r := by
    intro r hr
    rw [if_neg]
    intro hb
    exact h r hr hb
  calc st.map (fun r => if r.guild_id == g then { r with pfx := p } else r)
      = st.map id := List.map_congr_left hfix
    _ = st := List.map_id st

/-- Insert-or-ignore on a fresh guild id appends the default row, and the
lookup finds it. -/
theorem storeGet_insertOrIgnore_self (st : Store) (g o : Nat)
    (h : hasRow st g = false) :
    storeGet (insertOrIgnore st g o) g = some ⟨g, "-", o, "timeout", 0⟩ := by
  have h0 : storeGet st g = none := (hasRow_eq_false_iff st g).mp h
  unfold insertOrIgnore
  rw [h]
  simp only [Bool.false_eq_true, if_false]
  unfold storeGet at h0 ⊢
  rw [List.find?_append, h0]
  simp

/-- After the first sequential `cache_ready`, the guard is set and later
sequential signals change nothing. -/
theorem runSignals_of_running (n : Nat) (k : Nat) :
    runSignals n ⟨true, k⟩ = ⟨true, k⟩ := by
  induction n with
  | zero => rfl
  | succ m ih => simpa [runSignals, cacheReady] using ih

/-! ### Claim theorems -/

/-- C1: evaluation of `guild_delete` at a tracked workspace (guild 5 with
a customized pfx).  The handler deletes the store row (and its trace is
only the store delete — it issues no cache removal), so the cache entry
for guild 5 survives: `cacheGet` still returns the settings, contrary to
the claim that after the workspace-left event the cache lookup returns
nothing. -/
theorem c1_guild_delete_leaves_cache_entry :
    (guild_delete [⟨5, "!", 9, "timeout", 0⟩] [(5, ⟨"!", 9, "timeout", 0⟩)]
        5).store = [] ∧
    cacheGet (guild_delete [⟨5, "!", 9, "timeout", 0⟩]
        [(5, ⟨"!", 9, "timeout", 0⟩)] 5).cache 5 =
      some ⟨"!", 9, "timeout", 0⟩ ∧
    (guild_delete [⟨5, "!", 9, "timeout", 0⟩] [(5, ⟨"!", 9, "timeout", 0⟩)]
        5).trace = [DbEffect.storeDelete 5] := by
  decide

/-- C2 counterexample: guild 7 is tracked with customized pfx `"!"` in
both cache and store; a duplicate `guild_create` for guild 7 leaves the
store untouched (ON CONFLICT DO NOTHING) but resets the cached settings
to the defaults — the cached value after the event differs from the one
before, refuting "also leaves the cached prefix unchanged". -/
theorem c2_duplicate_join_resets_cached_pfx :
    (guild_create [⟨7, "!", 9, "timeout", 0⟩] [(7, ⟨"!", 9, "timeout", 0⟩)]
        7 9).store = [⟨7, "!", 9, "timeout", 0⟩] ∧
    cacheGet (guild_create [⟨7, "!", 9, "timeout", 0⟩]
        [(7, ⟨"!", 9, "timeout", 0⟩)] 7 9).cache 7 =
      some ⟨"-", 9, "timeout", 0⟩ ∧
    cacheGet (guild_create [⟨7, "!", 9, "timeout", 0⟩]
        [(7, ⟨"!", 9, "timeout", 0⟩)] 7 9).cache 7 ≠
      cacheGet [(7, ⟨"!", 9, "timeout", 0⟩)] 7 := by
  decide

/-- C2 (amended): a duplicate workspace-joined event for an
already-tracked guild leaves the whole store unchanged (so a customized
stored prefix survives) and never errors, but the cache write is a plain
replacing insert, so the cached settings are reset to the defaults for
the event's owner id. -/
theorem c2_duplicate_join_store_unchanged (st : Store) (c : Cache)
    (w o : Nat) (h : hasRow st w = true) :
    (guild_create st c w o).store = st ∧
      cacheGet (guild_create st c w o).cache w =
        some ⟨"-", o, "timeout", 0⟩ := by
  constructor
  · simp [guild_create, insertOrIgnore, h]
  · exact cacheGet_cacheInsert_self c w ⟨"-", o, "timeout", 0⟩

/-- Witness for `c2_duplicate_join_store_unchanged` at guild 7 with a
customized stored pfx. -/
theorem c2_duplicate_join_store_unchanged_w :
    hasRow [⟨7, "!", 9, "timeout", 0⟩] 7 = true ∧
    ((guild_create [⟨7, "!", 9, "timeout", 0⟩] [] 7 9).store =
        [⟨7, "!", 9, "timeout", 0⟩] ∧
      cacheGet (guild_create [⟨7, "!", 9, "timeout", 0⟩] [] 7 9).cache 7 =
        some ⟨"-", 9, "timeout", 0⟩) :=
  ⟨by decide,
    c2_duplicate_join_store_unchanged [⟨7, "!", 9, "timeout", 0⟩] [] 7 9
      (by decide)⟩

/-- C3 counterexample: the loop was spawned when `cache_ready` delivered
guilds `[10, 20]`, with the cache holding exactly those two guilds; then
guild 30 joins, growing the cache to size 3.  At the next tick the loop
still publishes the captured count 2, not the status built from the
current cache size, refuting "N is the current ConfigCache.size() at
that tick". -/
theorem c3_status_ignores_current_cache_size :
    loopTickPublish [10, 20] 1 ≠
      specTickStatus
        (fun _ =>
          ((guild_create []
            [(10, ⟨"-", 1, "timeout", 0⟩), (20, ⟨"-", 1, "timeout", 0⟩)]
            30 9).cache).length) 1 := by
  decide

/-- C3 (amended): every tick publishes
`"Monitoring a total of N guilds | -help"` where `N` is the length of
the guild list captured when the loop was spawned — the published string
is the same at every tick, independent of the current cache size. -/
theorem c3_tick_publishes_captured_count (guilds : List Nat) (t t' : Nat) :
    loopTickPublish guilds t = set_activity guilds.length ∧
    loopTickPublish guilds t =
      "Monitoring a total of " ++ toString guilds.length ++
        " guilds | -help" ∧
    loopTickPublish guilds t = loopTickPublish guilds t' :=
  ⟨rfl, rfl, rfl⟩

/-- C8: for a guild id with no store row, one `guild_create` leaves the
cache entry at pfx `"-"`, owner o, mute_type `"timeout"`, mute_role 0,
creates the store row with the same values, and its effect trace issues
the durable insert before the cache write. -/
theorem c8_fresh_join_defaults (st : Store) (c : Cache) (w o : Nat)
    (h : hasRow st w = false) :
    cacheGet (guild_create st c w o).cache w = some ⟨"-", o, "timeout", 0⟩ ∧
    storeGet (guild_create st c w o).store w =
      some ⟨w, "-", o, "timeout", 0⟩ ∧
    (guild_create st c w o).trace =
      [DbEffect.storeInsert w, DbEffect.cacheWrite w] := by
  refine ⟨?_, ?_, rfl⟩
  · exact cacheGet_cacheInsert_self c w ⟨"-", o, "timeout", 0⟩
  · exact storeGet_insertOrIgnore_self st w o h

/-- Witness for `c8_fresh_join_defaults`: guild 123 joins with owner 9 on
an empty store and empty cache. -/
theorem c8_fresh_join_defaults_w :
    hasRow [] 123 = false ∧
    (cacheGet (guild_create [] [] 123 9).cache 123 =
        some ⟨"-", 9, "timeout", 0⟩ ∧
      storeGet (guild_create [] [] 123 9).store 123 =
        some ⟨123, "-", 9, "timeout", 0⟩ ∧
      (guild_create [] [] 123 9).trace =
        [DbEffect.storeInsert 123, DbEffect.cacheWrite 123]) :=
  ⟨by decide, c8_fresh_join_defaults [] [] 123 9 (by decide)⟩

/-- C4 counterexample: the trimmed candidate `"a\tb"` contains a
whitespace character (a tab), yet the command does not reject it: it
confirms the new value and mutates the cache (and issues the store
UPDATE), refuting the claim for "any whitespace character".  The code
only tests for the space character. -/
theorem c4_tab_candidate_not_rejected :
    ((rustTrim "a\tb").data.any Char.isWhitespace = true) ∧
    (pfx_cmd false true 1 2 "a\tb" true [] []).response =
      Response.pfxSet "a\tb" ∧
    (pfx_cmd false true 1 2 "a\tb" true [] []).cache ≠ [] := by
  decide

/-- C4 (amended): for every argument whose trimmed value contains a
space character, the command responds with the rejection and leaves both
the cache and the store byte-for-byte unchanged; candidates containing
only other whitespace (such as a tab) are not rejected. -/
theorem c4_space_rejected_no_mutation (gid aid : Nat) (arg : String)
    (ok : Bool) (c : Cache) (st : Store)
    (h : containsSpace (rustTrim arg) = true) :
    pfx_cmd false true gid aid arg ok c st =
      ⟨Response.spacesRejected, c, st⟩ := by
  have hne : ¬ rustTrim arg = "" := by
    intro he
    rw [he] at h
    exact absurd h (by decide)
  simp [pfx_cmd, hne, h]

/-- Witness for `c4_space_rejected_no_mutation` at the argument
`"a b"`. -/
theorem c4_space_rejected_no_mutation_w :
    containsSpace (rustTrim "a b") = true ∧
    pfx_cmd false true 1 2 "a b" true [] [⟨1, "-", 9, "timeout", 0⟩] =
      ⟨Response.spacesRejected, [], [⟨1, "-", 9, "timeout", 0⟩]⟩ :=
  ⟨by decide,
    c4_space_rejected_no_mutation 1 2 "a b" true []
      [⟨1, "-", 9, "timeout", 0⟩] (by decide)⟩

/-- C5: evaluation of the set path when the store UPDATE fails
(admin sets `"!"` in guild 1 while the durable write fails): the
modelled `.unwrap()` aborts the handling task (`panicked`) after the
cache has already been mutated, and no failure response is surfaced to
the user. -/
theorem c5_store_failure_panics :
    (pfx_cmd false true 1 2 "!" false [] []).response = Response.panicked ∧
    (pfx_cmd false true 1 2 "!" false [] []).cache =
      [(1, ⟨"!", 2, "timeout", 0⟩)] ∧
    (pfx_cmd false true 1 2 "!" false [] []).store = [] := by
  decide

/-- C6: with an empty trimmed argument, an admin in guild 1: when the
cache has no entry for guild 1 the command's `.unwrap()` on the miss
aborts the task (`panicked`) — there is no just-in-time load; when the
entry is present the command responds with the cached pfx and mutates
neither cache nor store. -/
theorem c6_empty_arg_reads_cache :
    (pfx_cmd false true 1 2 "" true [] [⟨1, "!", 9, "timeout", 0⟩]).response =
      Response.panicked ∧
    (pfx_cmd false true 1 2 "" true [(1, ⟨"!", 9, "timeout", 0⟩)]
        [⟨1, "!", 9, "timeout", 0⟩]).response = Response.currentPfx "!" ∧
    (pfx_cmd false true 1 2 "" true [(1, ⟨"!", 9, "timeout", 0⟩)]
        [⟨1, "!", 9, "timeout", 0⟩]).cache = [(1, ⟨"!", 9, "timeout", 0⟩)] ∧
    (pfx_cmd false true 1 2 "" true [(1, ⟨"!", 9, "timeout", 0⟩)]
        [⟨1, "!", 9, "timeout", 0⟩]).store = [⟨1, "!", 9, "timeout", 0⟩] := by
  decide

/-- C7 counterexample: two `cache_ready` handlers dispatched
concurrently, interleaved as load/load/act/act (a schedule the
threadpool dispatch permits, since the flag load and the later
spawn-and-set are separate operations): both handlers observe the flag
unset and both spawn a presence loop, so the number of spawned loops is
not at most one. -/
theorem c7_overlapping_signals_two_loops :
    ¬ ((runSched ⟨false, 0, [HandlerPC.toLoad, HandlerPC.toLoad]⟩
        [0, 1, 0, 1]).spawned ≤ 1) := by
  decide

/-- C7 (amended): when the `cache_ready` handlers run without
overlapping (each one's flag test and set complete before the next
begins), any number of signals spawns at most one loop; from the second
signal on the flag is observed set and the state no longer changes.
Overlapping handlers, however, can both observe the flag unset and both
spawn (see the counterexample): the guard is a load followed by a
separate swap, not one atomic test-and-set. -/
theorem c7_sequential_signals_one_loop (n : Nat) :
    (runSignals n ⟨false, 0⟩).spawned ≤ 1 ∧
      (1 ≤ n → runSignals n ⟨false, 0⟩ = ⟨true, 1⟩) := by
  cases n with
  | zero => exact ⟨Nat.zero_le 1, fun h => absurd h (by decide)⟩
  | succ m =>
    have hrun : runSignals (m + 1) ⟨false, 0⟩ = ⟨true, 1⟩ := by
      show runSignals m (cacheReady ⟨false, 0⟩) = ⟨true, 1⟩
      have hc : cacheReady ⟨false, 0⟩ = ⟨true, 1⟩ := by decide
      rw [hc]
      exact runSignals_of_running m 1
    exact ⟨by rw [hrun], fun _ => hrun⟩

/-- Witness for `c7_sequential_signals_one_loop` at a burst of 5
sequential signals. -/
theorem c7_sequential_signals_one_loop_w :
    (runSignals 5 ⟨false, 0⟩).spawned ≤ 1 ∧
      (1 ≤ 5 → runSignals 5 ⟨false, 0⟩ = ⟨true, 1⟩) :=
  c7_sequential_signals_one_loop 5

/-- C9: invoked without the administrator permission, the command leaves
the cache and the store byte-for-byte unchanged whatever the argument,
and inside a workspace (not a DM) it responds with the denial. -/
theorem c9_non_admin_never_mutates (isPriv : Bool) (gid aid : Nat)
    (arg : String) (ok : Bool) (c : Cache) (st : Store) :
    (pfx_cmd isPriv false gid aid arg ok c st).cache = c ∧
    (pfx_cmd isPriv false gid aid arg ok c st).store = st ∧
    (isPriv = false →
      (pfx_cmd isPriv false gid aid arg ok c st).response =
        Response.adminDenied) := by
  cases isPriv <;> simp [pfx_cmd]

/-- Witness for `c9_non_admin_never_mutates`: a non-admin tries to set
`"!"` in guild 1. -/
theorem c9_non_admin_never_mutates_w :
    (pfx_cmd false false 1 2 "!" true [(1, ⟨"-", 9, "timeout", 0⟩)]
        [⟨1, "-", 9, "timeout", 0⟩]).cache = [(1, ⟨"-", 9, "timeout", 0⟩)] ∧
    (pfx_cmd false false 1 2 "!" true [(1, ⟨"-", 9, "timeout", 0⟩)]
        [⟨1, "-", 9, "timeout", 0⟩]).store = [⟨1, "-", 9, "timeout", 0⟩] ∧
    (false = false →
      (pfx_cmd false false 1 2 "!" true [(1, ⟨"-", 9, "timeout", 0⟩)]
          [⟨1, "-", 9, "timeout", 0⟩]).response = Response.adminDenied) :=
  c9_non_admin_never_mutates false 1 2 "!" true
    [(1, ⟨"-", 9, "timeout", 0⟩)] [⟨1, "-", 9, "timeout", 0⟩]

/-- C10: a successful set of a valid candidate in a guild with no cache
entry lazily creates the cache entry with owner_id the INVOKING author's
id, mute_type `"timeout"`, mute_role 0; the store receives only the
UPDATE, so when the store has no row for the guild it stays exactly as
it was (no row is created). -/
theorem c10_lazy_entry_owner_is_invoker (gid aid : Nat) (arg : String)
    (c : Cache) (st : Store)
    (h1 : ¬ rustTrim arg = "")
    (h2 : containsSpace (rustTrim arg) = false)
    (h3 : cacheGet c gid = none) :
    cacheGet (pfx_cmd false true gid aid arg true c st).cache gid =
      some ⟨rustTrim arg, aid, "timeout", 0⟩ ∧
    (pfx_cmd false true gid aid arg true c st).store =
      updatePfx st gid (rustTrim arg) ∧
    (hasRow st gid = false →
      (pfx_cmd false true gid aid arg true c st).store = st) := by
  have hcmd : pfx_cmd false true gid aid arg true c st =
      ⟨Response.pfxSet (rustTrim arg),
        cacheInsert c gid ⟨rustTrim arg, aid, "timeout", 0⟩,
        updatePfx st gid (rustTrim arg)⟩ := by
    simp [pfx_cmd, h1, h2, entryOrInsertSetPfx, h3]
  refine ⟨?_, ?_, ?_⟩
  · rw [hcmd]
    exact cacheGet_cacheInsert_self c gid ⟨rustTrim arg, aid, "timeout", 0⟩
  · rw [hcmd]
  · intro hrow
    rw [hcmd]
    exact updatePfx_of_none st gid (rustTrim arg)
      ((hasRow_eq_false_iff st gid).mp hrow)

/-- Witness for `c10_lazy_entry_owner_is_invoker`: author 2 sets `"!"`
in guild 1 with empty cache and a store that has no row for guild 1. -/
theorem c10_lazy_entry_owner_is_invoker_w :
    (¬ rustTrim "!" = "") ∧ containsSpace (rustTrim "!") = false ∧
    cacheGet [] 1 = none ∧
    (cacheGet (pfx_cmd false true 1 2 "!" true [] []).cache 1 =
        some ⟨rustTrim "!", 2, "timeout", 0⟩ ∧
      (pfx_cmd false true 1 2 "!" true [] []).store =
        updatePfx [] 1 (rustTrim "!") ∧
      (hasRow [] 1 = false →
        (pfx_cmd false true 1 2 "!" true [] []).store = [])) :=
  ⟨by decide, by decide, by decide,
    c10_lazy_entry_owner_is_invoker 1 2 "!" [] [] (by decide) (by decide)
      (by decide)⟩
